import Mathlib

/-!
Verification development for the fantasy-football-manager repository.

Shallow embedding of the scrape-to-canonical-record pipeline:
Python strings are modelled as `List Char` (ASCII semantics for the
character-class helpers, which is exact on every string the pipeline
handles), Python dicts as association lists whose lookup returns the
first matching key, and Python `float(...)` as an exact decimal parser
producing a numerator together with a power-of-ten denominator (the two
comparisons the code performs, `== 0.0` and `< 50.0`, are decided
exactly on that representation).
-/

/-- A Python `str`, modelled as its list of characters. -/
abbrev PyStr := List Char

/-- Python whitespace recognised by `str.strip()` (ASCII subset). -/
def pyIsSpace (c : Char) : Bool :=
  c == ' ' || c == '\t' || c == '\n' || c == '\r' || c == '\x0b' || c == '\x0c'

/-- Python `str.strip()`: drop whitespace from both ends. -/
def pyStrip (s : PyStr) : PyStr :=
  ((s.dropWhile pyIsSpace).reverse.dropWhile pyIsSpace).reverse

/-- Python `ch.isupper()` for the ASCII range handled by the pipeline. -/
def pyIsUpper (c : Char) : Bool := 'A' ≤ c && c ≤ 'Z'

/-- Python `str.upper()` (ASCII subset). -/
def pyUpper (s : PyStr) : PyStr :=
  s.map fun c => if 'a' ≤ c && c ≤ 'z' then Char.ofNat (c.toNat - 32) else c

/-- Lookup in a Python dict modelled as an association list:
`d.get(k, dflt)`. -/
def pyGet (d : List (String × PyStr)) (k : String) (dflt : PyStr) : PyStr :=
  match d.find? (fun kv => kv.1 == k) with
  | some kv => kv.2
  | none => dflt

/-- Lookup without a default: `d.get(k)` returning `None` when absent. -/
def pyGetOpt (d : List (String × PyStr)) (k : String) : Option PyStr :=
  (d.find? (fun kv => kv.1 == k)).map Prod.snd

/-- Python dict assignment `d[k] = v`: overwrite in place if the key
exists, else append the new binding at the end. -/
def pySet (d : List (String × PyStr)) (k : String) (v : PyStr) : List (String × PyStr) :=
  if d.any (fun kv => kv.1 == k) then
    d.map (fun kv => if kv.1 == k then (k, v) else kv)
  else d ++ [(k, v)]

/-- Worker for `removeAll`, structurally recursive on a fuel bound so
that it evaluates inside the kernel; `fuel ≥ s.length` makes the fuel
irrelevant. -/
def removeAllAux (pat : PyStr) : Nat → PyStr → PyStr
  | 0, s => s
  | _ + 1, [] => []
  | fuel + 1, c :: rest =>
    if pat ≠ [] ∧ pat <+: (c :: rest) then
      removeAllAux pat fuel (List.drop (pat.length - 1) rest)
    else c :: removeAllAux pat fuel rest

/-- Python `s.replace(pat, '')` for a pattern: delete the leftmost
occurrence and continue scanning after it (non-overlapping, left to
right), exactly as CPython does. -/
def removeAll (pat s : PyStr) : PyStr := removeAllAux pat s.length s

/-- First-match scan of `parse_player_name`
(src/modules/dump_teams.py lines 46-58): return the first candidate
that occurs as a substring of `text`, else the empty string. -/
def firstMatch (cands : List PyStr) (text : PyStr) : PyStr :=
  match cands with
  | [] => []
  | c :: rest => if c <:+: text then c else firstMatch rest text

theorem pyStrip_length_le (s : PyStr) : (pyStrip s).length ≤ s.length := by
  unfold pyStrip
  calc ((s.dropWhile pyIsSpace).reverse.dropWhile pyIsSpace).reverse.length
      = ((s.dropWhile pyIsSpace).reverse.dropWhile pyIsSpace).length :=
        List.length_reverse _
    _ ≤ (s.dropWhile pyIsSpace).reverse.length :=
        (List.dropWhile_sublist pyIsSpace).length_le
    _ = (s.dropWhile pyIsSpace).length := List.length_reverse _
    _ ≤ s.length := (List.dropWhile_sublist pyIsSpace).length_le

/-- Worker for `cleanupName`, structurally recursive on a fuel bound;
`fuel ≥ name.length` makes the fuel irrelevant. -/
def cleanupNameAux : Nat → PyStr → PyStr
  | 0, name => name
  | fuel + 1, name =>
    if name.length > 1 ∧ pyIsUpper (name.getLastD ' ') then
      cleanupNameAux fuel (pyStrip name.dropLast)
    else name

/-- The trailing-uppercase cleanup loop of `parse_player_name`
(src/modules/dump_teams.py lines 70-71):
`while name and name[-1].isupper() and len(name) > 1: name = name[:-1].strip()`. -/
def cleanupName (name : PyStr) : PyStr := cleanupNameAux name.length name

/-- The team-abbreviation list of `parse_player_name`
(src/modules/dump_teams.py lines 38-41). -/
def clean_teams : List PyStr :=
  ["Ari", "Atl", "Bal", "Buf", "Car", "Chi", "Cin", "Cle", "Dal", "Den",
   "Det", "GB", "Hou", "Ind", "Jax", "KC", "LV", "LAC", "LAR", "Mia",
   "Min", "NE", "NO", "NYG", "NYJ", "Phi", "Pit", "SF", "Sea", "TB",
   "Ten", "Was", "Wsh"].map String.toList

/-- The position-abbreviation list of `parse_player_name`
(src/modules/dump_teams.py line 44). -/
def positions : List PyStr :=
  ["QB", "RB", "WR", "TE", "K", "D/ST", "FLEX", "Bench", "IR"].map String.toList

/-- Result of the name/team/position split. -/
structure ParsedName where
  name : PyStr
  team : PyStr
  position : PyStr
deriving DecidableEq

/-- `parse_player_name` from src/modules/dump_teams.py lines 32-73
(line-for-line identical logic to `_parse_player_name` in
src/core_data.py lines 448-488). -/
def parse_player_name (full_text : PyStr) : ParsedName :=
  if full_text = [] ∨ full_text = "MOVE".toList ∨ full_text = "TOTALS".toList then
    ⟨full_text, [], []⟩
  else
    let position := firstMatch positions full_text
    let team := firstMatch clean_teams full_text
    let name1 := if team ≠ [] then removeAll team full_text else full_text
    let name2 := if position ≠ [] then removeAll position name1 else name1
    ⟨cleanupName (pyStrip name2), team, position⟩

example : parse_player_name "J. SmithKCRB".toList =
    ⟨"J. Smith".toList, "KC".toList, "RB".toList⟩ := by decide

example : parse_player_name "BenchQ".toList = ⟨"Q".toList, [], "Bench".toList⟩ := by decide

example : parse_player_name "QBench".toList = ⟨"ench".toList, [], "QB".toList⟩ := by decide

/-! ### Model of Python `float(...)` parsing

The code only ever parses a string and compares the result with `0.0`
or `50.0`, so a float is modelled exactly as an integer numerator over
a power-of-ten denominator.  The grammar modelled is
`[ws] [sign] digits [. digits] [(e|E) [sign] digits] [ws]` with at
least one mantissa digit (Python's `inf`/`nan` and underscore forms do
not occur in this pipeline and are not modelled). -/

/-- Exact decimal value `num / 10 ^ pow10`. -/
structure PyFloat where
  num : Int
  pow10 : Nat
deriving DecidableEq

def isDigit (c : Char) : Bool := '0' ≤ c && c ≤ '9'

def natOfDigits (ds : PyStr) : Nat :=
  ds.foldl (fun acc c => 10 * acc + (c.toNat - '0'.toNat)) 0

/-- Model of Python `float(s)`: `none` when `float` raises `ValueError`. -/
def parseFloat (s0 : PyStr) : Option PyFloat :=
  let s := pyStrip s0
  let signAndRest : Int × PyStr :=
    match s with
    | '+' :: r => (1, r)
    | '-' :: r => (-1, r)
    | _ => (1, s)
  let sign := signAndRest.1
  let s1 := signAndRest.2
  let intDigits := s1.takeWhile isDigit
  let rest1 := s1.dropWhile isDigit
  let fracAndRest : PyStr × PyStr :=
    match rest1 with
    | '.' :: r => (r.takeWhile isDigit, r.dropWhile isDigit)
    | _ => ([], rest1)
  let fracDigits := fracAndRest.1
  let rest2 := fracAndRest.2
  if intDigits = [] ∧ fracDigits = [] then none
  else
    let mantissa : PyFloat :=
      ⟨sign * (natOfDigits (intDigits ++ fracDigits) : Int), fracDigits.length⟩
    match rest2 with
    | [] => some mantissa
    | e :: r =>
      if e = 'e' ∨ e = 'E' then
        let esignAndRest : Bool × PyStr :=
          match r with
          | '+' :: rr => (true, rr)
          | '-' :: rr => (false, rr)
          | _ => (true, r)
        let eDigits := esignAndRest.2.takeWhile isDigit
        let rest3 := esignAndRest.2.dropWhile isDigit
        if eDigits = [] ∨ rest3 ≠ [] then none
        else
          let ev := natOfDigits eDigits
          some (if esignAndRest.1 then ⟨mantissa.num * (10 : Int) ^ ev, mantissa.pow10⟩
                else ⟨mantissa.num, mantissa.pow10 + ev⟩)
      else none

/-- `float(s) == 0.0` on a successful parse, `False` when the parse
raises (mirrors a guarded `try: ... except: pass` use site). -/
def parsesToZero (s : PyStr) : Bool :=
  match parseFloat s with
  | some f => f.num == 0
  | none => false

/-- `float(s) < n` on a successful parse, `False` when the parse raises. -/
def parsesBelow (s : PyStr) (n : Nat) : Bool :=
  match parseFloat s with
  | some f => decide (f.num < (n : Int) * (10 : Int) ^ f.pow10)
  | none => false

example : parseFloat "0.0".toList = some ⟨0, 1⟩ := by decide
example : parseFloat " -12.5 ".toList = some ⟨-125, 1⟩ := by decide
example : parseFloat "1.e2".toList = some ⟨100, 0⟩ := by decide
example : parseFloat "abc".toList = none := by decide
example : parseFloat "".toList = none := by decide
example : parsesBelow "49.9".toList 50 = true := by decide
example : parsesBelow "50".toList 50 = false := by decide

/-! ### Roster-status inference -/

/-- The skill-position set used by `determine_player_status`. -/
def skillPositions : List PyStr :=
  ["QB", "RB", "WR", "TE", "K", "D/ST"].map String.toList

/-- `determine_player_status` from src/modules/dump_teams.py lines
76-125.  The `total_players` argument of the Python function is unused
by its body and omitted. -/
def determine_player_status (player_data : List (String × PyStr)) (player_index : Nat) : PyStr :=
  let position := pyStrip (pyGet player_data "Position" [])
  let status := pyStrip (pyGet player_data "Status" [])
  let projected_points := pyGet player_data "Projected Points" "0".toList
  let start_percent := pyGet player_data "Start %" "0".toList
  if "IR".toList <:+: pyUpper status ∨ "INJURED".toList <:+: pyUpper status ∨
      "OUT".toList <:+: pyUpper status then "IR".toList
  else if parsesToZero projected_points ∧ position ∈ skillPositions then "IR".toList
  else if position = "Bench".toList ∨ position = "FLEX".toList then "BE".toList
  else if player_index < 10 ∧ position ∈ skillPositions then position
  else if player_index ≥ 10 then "BE".toList
  else if parsesBelow start_percent 50 ∧ position ∈ skillPositions then "BE".toList
  else if position ∈ skillPositions then position
  else "BE".toList

/-- `_determine_player_status` from src/core_data.py lines 490-516.
A failed `float(...)` parse is caught and the value defaulted to `0.0`
before the comparisons run. -/
def _determine_player_status (player_data : List (String × PyStr)) (player_index : Nat) : PyStr :=
  let position := pyGet player_data "Position" []
  let projected_points := pyGet player_data "Projected Points" "0.0".toList
  let start_percent := pyGet player_data "Start %" "0%".toList
  let projectedIsZero : Bool :=
    match parseFloat projected_points with
    | some f => f.num == 0
    | none => true
  let startBelow50 : Bool :=
    match parseFloat (removeAll ['%'] start_percent) with
    | some f => decide (f.num < (50 : Int) * (10 : Int) ^ f.pow10)
    | none => true
  if projectedIsZero then "IR".toList
  else if player_index ≥ 10 ∨ startBelow50 then "BE".toList
  else if position ≠ [] then position
  else "BE".toList

example : determine_player_status
    [("Position", "RB".toList), ("Projected Points", "0.0".toList)] 7 = "IR".toList := by decide
example : determine_player_status
    [("Position", "WR".toList), ("Start %", "80".toList),
     ("Projected Points", "12.5".toList)] 11 = "BE".toList := by decide
example : _determine_player_status
    [("Position", "WR".toList), ("Projected Points", "abc".toList),
     ("Start %", "80".toList)] 0 = "IR".toList := by decide
example : _determine_player_status
    [("Position", "WR".toList), ("Projected Points", "1.0".toList),
     ("Start %", "80".toList)] 0 = "WR".toList := by decide

/-- The IR-status-text test of `determine_player_status`
(src/modules/dump_teams.py line 85). -/
def statusTextIsIR (d : List (String × PyStr)) : Prop :=
  "IR".toList <:+: pyUpper (pyStrip (pyGet d "Status" [])) ∨
  "INJURED".toList <:+: pyUpper (pyStrip (pyGet d "Status" [])) ∨
  "OUT".toList <:+: pyUpper (pyStrip (pyGet d "Status" []))

instance (d : List (String × PyStr)) : Decidable (statusTextIsIR d) := by
  unfold statusTextIsIR; infer_instance

/-- C2: a record whose `Projected Points` field parses as the float
`0.0` and whose position lies in {QB, RB, WR, TE, K, D/ST} is inferred
as `IR` at every row index, by `determine_player_status`
(src/modules/dump_teams.py) as well as by `_determine_player_status`
(src/core_data.py). -/
theorem claim_C2_projected_zero_is_IR :
    (∀ (d : List (String × PyStr)) (i : Nat) (f : PyFloat),
       parseFloat (pyGet d "Projected Points" "0".toList) = some f → f.num = 0 →
       pyStrip (pyGet d "Position" []) ∈ skillPositions →
       determine_player_status d i = "IR".toList) ∧
    (∀ (d : List (String × PyStr)) (i : Nat) (f : PyFloat),
       parseFloat (pyGet d "Projected Points" "0.0".toList) = some f → f.num = 0 →
       pyGet d "Position" [] ∈ skillPositions →
       _determine_player_status d i = "IR".toList) := by
  constructor
  · intro d i f hp hz hm
    have hz' : parsesToZero (pyGet d "Projected Points" "0".toList) = true := by
      unfold parsesToZero
      rw [hp]
      simp [hz]
    simp only [determine_player_status]
    split_ifs with h1 h2
    · rfl
    · rfl
    all_goals exact absurd ⟨hz', hm⟩ h2
  · intro d i f hp hz _
    simp only [_determine_player_status, hp, hz]
    simp

/-- Witness for C2 at Scenario B: projected points `"0.0"`, position
`"RB"`, arbitrary row index 42. -/
theorem claim_C2_witness :
    determine_player_status
      [("Projected Points", "0.0".toList), ("Position", "RB".toList)] 42 = "IR".toList :=
  claim_C2_projected_zero_is_IR.1
    [("Projected Points", "0.0".toList), ("Position", "RB".toList)] 42 ⟨0, 1⟩
    (by decide) (by decide) (by decide)

/-- C3: when no earlier rule fires (no IR status text, projected
points not parsing to `0.0`, position neither `Bench` nor `FLEX`),
every row index `>= 10` yields `BE`; the row-index rule fires before
the start-percentage rule (Scenario C: index 11, `WR`, start % `80`);
and `_determine_player_status` in src/core_data.py likewise yields
`BE` at index `>= 10` whenever its projected-points test lets it
through. -/
theorem claim_C3_index_rule_gives_BE :
    (∀ (d : List (String × PyStr)) (i : Nat),
       ¬statusTextIsIR d →
       parsesToZero (pyGet d "Projected Points" "0".toList) = false →
       pyStrip (pyGet d "Position" []) ≠ "Bench".toList →
       pyStrip (pyGet d "Position" []) ≠ "FLEX".toList →
       10 ≤ i →
       determine_player_status d i = "BE".toList) ∧
    determine_player_status
      [("Position", "WR".toList), ("Start %", "80".toList),
       ("Projected Points", "12.5".toList)] 11 = "BE".toList ∧
    (∀ (d : List (String × PyStr)) (i : Nat) (f : PyFloat),
       parseFloat (pyGet d "Projected Points" "0.0".toList) = some f → f.num ≠ 0 →
       10 ≤ i →
       _determine_player_status d i = "BE".toList) := by
  refine ⟨?_, by decide, ?_⟩
  · intro d i hstat hproj hbench hflex hidx
    simp only [determine_player_status]
    split_ifs with h1 h2 h3 h4
    · exact absurd h1 hstat
    · rw [hproj] at h2
      exact absurd h2.1 (by simp)
    · rcases h3 with h | h
      · exact absurd h hbench
      · exact absurd h hflex
    · omega
    · rfl
  · intro d i f hp hz hidx
    have h0 : (match parseFloat (pyGet d "Projected Points" "0.0".toList) with
        | some f => f.num == 0
        | none => true) = false := by
      rw [hp]
      simp [hz]
    simp only [_determine_player_status, h0]
    simp [Nat.le_of_eq, hidx]

/-- Witness for C3 at Scenario C. -/
theorem claim_C3_witness :
    determine_player_status
      [("Position", "WR".toList), ("Start %", "80".toList),
       ("Projected Points", "12.5".toList)] 11 = "BE".toList :=
  claim_C3_index_rule_gives_BE.1
    [("Position", "WR".toList), ("Start %", "80".toList),
     ("Projected Points", "12.5".toList)] 11
    (by decide) (by decide) (by decide) (by decide) (by decide)

/-- C10: `determine_player_status` is total and always returns one of
the eight status strings QB, RB, WR, TE, K, D/ST, BE, IR. -/
theorem claim_C10_status_in_fixed_set
    (d : List (String × PyStr)) (i : Nat) :
    determine_player_status d i ∈
      (["QB", "RB", "WR", "TE", "K", "D/ST", "BE", "IR"].map String.toList) := by
  have hsub : ∀ x ∈ skillPositions,
      x ∈ (["QB", "RB", "WR", "TE", "K", "D/ST", "BE", "IR"].map String.toList) := by
    decide
  simp only [determine_player_status]
  split_ifs with h1 h2 h3 h4 h5 h6 h7
  · decide
  · decide
  · decide
  · exact hsub _ h4.2
  · decide
  · decide
  · exact hsub _ h7
  · decide

/-- C4 counterexample: in `_determine_player_status`
(src/core_data.py lines 496-509) an unparseable `Projected Points`
value does NOT fall through — the caught parse defaults the value to
`0.0`, which makes the projected-points IR rule fire.  With the same
record parseable as `1.0` the inference returns `WR`, so the `IR`
answer on `"abc"` comes precisely from the failed parse. -/
theorem claim_C4_counterexample :
    parseFloat "abc".toList = none ∧
    _determine_player_status
      [("Position", "WR".toList), ("Projected Points", "abc".toList),
       ("Start %", "80".toList)] 0 = "IR".toList ∧
    _determine_player_status
      [("Position", "WR".toList), ("Projected Points", "1.0".toList),
       ("Start %", "80".toList)] 0 = "WR".toList := by
  decide

/-- C4 amended: failed numeric parses never raise in either
implementation.  In `determine_player_status`
(src/modules/dump_teams.py) they silently fall through: the result is
invariant under exchanging one unparseable `Projected Points` (resp.
`Start %`) value for another, and an unparseable `Projected Points`
can never produce `IR` unless the status-text rule fires.  In
`_determine_player_status` (src/core_data.py), by contrast, a failed
`Projected Points` parse is defaulted to `0.0` and therefore always
fires the `IR` rule. -/
theorem claim_C4_failed_parse_falls_through :
    (∀ (d1 d2 : List (String × PyStr)) (i : Nat),
       pyGet d1 "Position" [] = pyGet d2 "Position" [] →
       pyGet d1 "Status" [] = pyGet d2 "Status" [] →
       pyGet d1 "Start %" "0".toList = pyGet d2 "Start %" "0".toList →
       parseFloat (pyGet d1 "Projected Points" "0".toList) = none →
       parseFloat (pyGet d2 "Projected Points" "0".toList) = none →
       determine_player_status d1 i = determine_player_status d2 i) ∧
    (∀ (d1 d2 : List (String × PyStr)) (i : Nat),
       pyGet d1 "Position" [] = pyGet d2 "Position" [] →
       pyGet d1 "Status" [] = pyGet d2 "Status" [] →
       pyGet d1 "Projected Points" "0".toList = pyGet d2 "Projected Points" "0".toList →
       parseFloat (pyGet d1 "Start %" "0".toList) = none →
       parseFloat (pyGet d2 "Start %" "0".toList) = none →
       determine_player_status d1 i = determine_player_status d2 i) ∧
    (∀ (d : List (String × PyStr)) (i : Nat),
       parseFloat (pyGet d "Projected Points" "0".toList) = none →
       ¬statusTextIsIR d →
       determine_player_status d i ≠ "IR".toList) ∧
    (∀ (d : List (String × PyStr)) (i : Nat),
       parseFloat (pyGet d "Projected Points" "0.0".toList) = none →
       _determine_player_status d i = "IR".toList) := by
  refine ⟨?_, ?_, ?_, ?_⟩
  · intro d1 d2 i hpos hstat hstart hp1 hp2
    have h1 : parsesToZero (pyGet d1 "Projected Points" "0".toList) = false := by
      unfold parsesToZero
      rw [hp1]
    have h2 : parsesToZero (pyGet d2 "Projected Points" "0".toList) = false := by
      unfold parsesToZero
      rw [hp2]
    simp only [determine_player_status, h1, h2, hpos, hstat, hstart]
  · intro d1 d2 i hpos hstat hproj hp1 hp2
    have h1 : parsesBelow (pyGet d1 "Start %" "0".toList) 50 = false := by
      unfold parsesBelow
      rw [hp1]
    have h2 : parsesBelow (pyGet d2 "Start %" "0".toList) 50 = false := by
      unfold parsesBelow
      rw [hp2]
    simp only [determine_player_status, h1, h2, hpos, hstat, hproj]
  · intro d i hp hstat
    have h0 : parsesToZero (pyGet d "Projected Points" "0".toList) = false := by
      unfold parsesToZero
      rw [hp]
    have hsk : ∀ x ∈ skillPositions, x ≠ "IR".toList := by decide
    simp only [determine_player_status]
    split_ifs with h1 h2 h3 h4 h5 h6 h7
    · exact absurd h1 hstat
    · rw [h0] at h2
      exact absurd h2.1 (by simp)
    · decide
    · exact hsk _ h4.2
    · decide
    · decide
    · exact hsk _ h7
    · decide
  · intro d i hp
    have h0 : (match parseFloat (pyGet d "Projected Points" "0.0".toList) with
        | some f => f.num == 0
        | none => true) = true := by
      rw [hp]
    simp only [_determine_player_status, h0]
    simp

/-- Witness for C4's amended theorem: a record whose projected points
`"N/A"` and start percentage `"--"` both fail to parse gets the same
status as one with `"??"` and `"?"` there, never `IR`, while
src/core_data.py's variant is forced to `IR` by the failed parse. -/
theorem claim_C4_witness :
    determine_player_status
      [("Position", "WR".toList), ("Projected Points", "N/A".toList),
       ("Start %", "--".toList)] 3 =
      determine_player_status
      [("Position", "WR".toList), ("Projected Points", "??".toList),
       ("Start %", "--".toList)] 3 ∧
    determine_player_status
      [("Position", "WR".toList), ("Projected Points", "N/A".toList),
       ("Start %", "--".toList)] 3 ≠ "IR".toList ∧
    _determine_player_status
      [("Position", "WR".toList), ("Projected Points", "N/A".toList),
       ("Start %", "--".toList)] 3 = "IR".toList :=
  ⟨claim_C4_failed_parse_falls_through.1
      [("Position", "WR".toList), ("Projected Points", "N/A".toList),
       ("Start %", "--".toList)]
      [("Position", "WR".toList), ("Projected Points", "??".toList),
       ("Start %", "--".toList)] 3
      (by decide) (by decide) (by decide) (by decide) (by decide),
   claim_C4_failed_parse_falls_through.2.2.1
      [("Position", "WR".toList), ("Projected Points", "N/A".toList),
       ("Start %", "--".toList)] 3 (by decide) (by decide),
   claim_C4_failed_parse_falls_through.2.2.2
      [("Position", "WR".toList), ("Projected Points", "N/A".toList),
       ("Start %", "--".toList)] 3 (by decide)⟩

theorem firstMatch_eq_find (cands : List PyStr) (t : PyStr) :
    firstMatch cands t = ((cands.find? (fun c => decide (c <:+: t))).getD []) := by
  induction cands with
  | nil => rfl
  | cons c rest ih =>
    by_cases h : c <:+: t
    · simp [firstMatch, List.find?, h]
    · simp [firstMatch, List.find?, h, ih]

/-- C5: the split takes, independently for the position and for the
team, the first entry of its fixed ordered list occurring as a
substring anywhere in the input (first match in list iteration order),
removes every occurrence of the two matched substrings (team first,
then position), and strips trailing uppercase single letters; Scenario
A: `"J. SmithKCRB"` parses as name `"J. Smith"`, team `"KC"`,
position `"RB"`. -/
theorem claim_C5_first_match_split :
    (∀ t : PyStr, t ≠ [] → t ≠ "MOVE".toList → t ≠ "TOTALS".toList →
       parse_player_name t =
         ⟨cleanupName (pyStrip
            (let team := (clean_teams.find? (fun c => decide (c <:+: t))).getD []
             let pos := (positions.find? (fun p => decide (p <:+: t))).getD []
             let name1 := if team ≠ [] then removeAll team t else t
             if pos ≠ [] then removeAll pos name1 else name1)),
          (clean_teams.find? (fun c => decide (c <:+: t))).getD [],
          (positions.find? (fun p => decide (p <:+: t))).getD []⟩) ∧
    parse_player_name "J. SmithKCRB".toList =
      ⟨"J. Smith".toList, "KC".toList, "RB".toList⟩ := by
  constructor
  · intro t h1 h2 h3
    rw [parse_player_name, if_neg (by
      simp only [not_or]
      exact ⟨h1, h2, h3⟩)]
    simp only [firstMatch_eq_find]
  · decide

/-- Witness for C5 at Scenario A. -/
theorem claim_C5_witness :
    parse_player_name "J. SmithKCRB".toList =
      ⟨"J. Smith".toList, "KC".toList, "RB".toList⟩ :=
  (claim_C5_first_match_split.1 "J. SmithKCRB".toList
      (by decide) (by decide) (by decide)).trans (by decide)

/-! ### Source dispatcher (src/fantasy_football_manager/sources/__init__.py) -/

/-- `fetch_roster` dispatcher: the two source implementations are
opaque collaborators passed as functions; the raised `ValueError` on
an unknown source name is modelled as `Except.error`. -/
def sources_fetch_roster {σ ρ : Type} (espn_fetch_roster yahoo_fetch_roster : String → Option σ → ρ)
    (team_id : String) (source : String) (session_state : Option σ) : Except String ρ :=
  if source = "espn" then Except.ok (espn_fetch_roster team_id session_state)
  else if source = "yahoo" then Except.ok (yahoo_fetch_roster team_id session_state)
  else Except.error ("Unknown source: " ++ source)

/-- `fetch_teams` dispatcher, same shape over an input-file path. -/
def sources_fetch_teams {ρ : Type} (espn_fetch_teams yahoo_fetch_teams : String → ρ)
    (input_file : String) (source : String) : Except String ρ :=
  if source = "espn" then Except.ok (espn_fetch_teams input_file)
  else if source = "yahoo" then Except.ok (yahoo_fetch_teams input_file)
  else Except.error ("Unknown source: " ++ source)

/-- C7: for every source name other than `espn` and `yahoo`, both
dispatchers raise the configuration error `Unknown source: ...`
instead of returning any (possibly empty) result. -/
theorem claim_C7_unknown_source_raises {σ ρ : Type}
    (espn_r yahoo_r : String → Option σ → ρ) (espn_t yahoo_t : String → ρ)
    (team_id input_file source : String) (session_state : Option σ)
    (h1 : source ≠ "espn") (h2 : source ≠ "yahoo") :
    sources_fetch_roster espn_r yahoo_r team_id source session_state =
      Except.error ("Unknown source: " ++ source) ∧
    sources_fetch_teams espn_t yahoo_t input_file source =
      Except.error ("Unknown source: " ++ source) := by
  constructor
  · rw [sources_fetch_roster, if_neg h1, if_neg h2]
  · rw [sources_fetch_teams, if_neg h1, if_neg h2]

/-- Witness for C7 at Scenario D: source name `"sleeper"`. -/
theorem claim_C7_witness :
    sources_fetch_roster (σ := Unit) (fun _ _ => ([] : PyStr)) (fun _ _ => [])
      "8" "sleeper" none = Except.error "Unknown source: sleeper" ∧
    sources_fetch_teams (fun _ => ([] : PyStr)) (fun _ => [])
      "html_input/teams_table.html" "sleeper" = Except.error "Unknown source: sleeper" :=
  claim_C7_unknown_source_raises (fun _ _ => []) (fun _ _ => []) (fun _ => []) (fun _ => [])
    "8" "html_input/teams_table.html" "sleeper" none (by decide) (by decide)

/-! ### Page extractor (src/sources/espn.py) -/

/-- The keep test of `_extract_team_data_from_page`
(src/sources/espn.py lines 160-163): truthy dict, truthy player name,
name not the sentinel `Unknown`, opponent not `TOTALS`. -/
def keepPlayerDict (player_dict : List (String × PyStr)) : Bool :=
  !(player_dict == []) &&
  (match pyGetOpt player_dict "Player Name" with
   | some v => !(v == []) && !(v == "Unknown".toList)
   | none => false) &&
  !(pyGetOpt player_dict "Opponent" == some "TOTALS".toList)

/-- The row loop of `_extract_team_data_from_page`
(src/sources/espn.py lines 150-166).  Rows of the located `tbody` are
abstract values; `rowClasses` models `row.get('class', [])` and
`parseRow` models `_parse_roster_row(str(row))`. -/
def extract_team_players {ρ : Type} (rowClasses : ρ → List String)
    (parseRow : ρ → List (String × PyStr)) : List ρ → List (List (String × PyStr))
  | [] => []
  | row :: rest =>
    if (rowClasses row).contains "total-col" then
      extract_team_players rowClasses parseRow rest
    else if keepPlayerDict (parseRow row) then
      parseRow row :: extract_team_players rowClasses parseRow rest
    else
      extract_team_players rowClasses parseRow rest

/-- A row survives the extractor iff it carries no `total-col` marker
and its parse passes the keep test. -/
def rowKept {ρ : Type} (rowClasses : ρ → List String)
    (parseRow : ρ → List (String × PyStr)) (r : ρ) : Bool :=
  !((rowClasses r).contains "total-col") && keepPlayerDict (parseRow r)

/-- C8: the extractor's output is exactly the parsed versions of the
rows that carry no `total-col` marker and pass the keep test (truthy,
non-sentinel player name, opponent not `TOTALS`), in document order —
the loop equals a filter of the row sequence followed by parsing. -/
theorem claim_C8_extractor_is_ordered_filter {ρ : Type}
    (rowClasses : ρ → List String) (parseRow : ρ → List (String × PyStr))
    (rows : List ρ) :
    extract_team_players rowClasses parseRow rows =
      (rows.filter (rowKept rowClasses parseRow)).map parseRow := by
  induction rows with
  | nil => rfl
  | cons row rest ih =>
    cases h1 : (rowClasses row).contains "total-col" with
    | true =>
      have h1m : "total-col" ∈ rowClasses row := by simpa using h1
      have hk : rowKept rowClasses parseRow row = false := by
        simp [rowKept, h1m]
      simp only [extract_team_players, h1, List.filter_cons, hk]
      simp [ih]
    | false =>
      have h1m : "total-col" ∉ rowClasses row := by simpa using h1
      cases h2 : keepPlayerDict (parseRow row) with
      | true =>
        have hk : rowKept rowClasses parseRow row = true := by
          simp [rowKept, h1m, h2]
        simp only [extract_team_players, h1, h2, List.filter_cons, hk]
        simp [ih]
      | false =>
        have hk : rowKept rowClasses parseRow row = false := by
          simp [rowKept, h1m, h2]
        simp only [extract_team_players, h1, h2, List.filter_cons, hk]
        simp [ih]

/-! ### Unified CSV export, collection phase
(src/fantasy_football_manager/core_data.py lines 301-330) -/

/-- Canonical roster result consumed by the unified export:
`manager_name` and the player dicts of one team. -/
structure TeamRoster where
  manager_name : PyStr
  players : List (List (String × PyStr))
deriving DecidableEq

/-- Tag every player dict of a fetched team with `Manager` and
`Team_ID` (src/fantasy_football_manager/core_data.py lines 316-323);
a falsy manager name falls back to `Manager{team_id}`. -/
def tagTeamPlayers (team_id : String) (td : TeamRoster) : List (List (String × PyStr)) :=
  let manager := if td.manager_name ≠ [] then td.manager_name
                 else ("Manager" ++ team_id).toList
  td.players.map (fun p => pySet (pySet p "Manager" manager) "Team_ID" team_id.toList)

/-- The per-team collection loop of `export_all_teams_to_csv`
(src/fantasy_football_manager/core_data.py lines 301-330).
`get_roster` models `self.get_roster(team_id, source)`:
`Except.error` is a raised exception, `Except.ok none` a falsy/empty
roster.  Returns `(all_players, failed_teams)`. -/
def export_collect (get_roster : String → Except String (Option TeamRoster)) :
    List String → List (List (String × PyStr)) × List String
  | [] => ([], [])
  | team_id :: rest =>
    let acc := export_collect get_roster rest
    match get_roster team_id with
    | Except.error _ => (acc.1, team_id :: acc.2)
    | Except.ok none => (acc.1, team_id :: acc.2)
    | Except.ok (some td) =>
      if td.players = [] then (acc.1, team_id :: acc.2)
      else (tagTeamPlayers team_id td ++ acc.1, acc.2)

/-- A team is recorded as failed iff its fetch raises, returns a falsy
roster, or returns a roster with no players. -/
def teamFetchFails (get_roster : String → Except String (Option TeamRoster))
    (team_id : String) : Bool :=
  match get_roster team_id with
  | Except.error _ => true
  | Except.ok none => true
  | Except.ok (some td) => td.players == []

/-- The tagged player dicts a team contributes to the unified export
(empty on any failure). -/
def teamTaggedPlayers (get_roster : String → Except String (Option TeamRoster))
    (team_id : String) : List (List (String × PyStr)) :=
  match get_roster team_id with
  | Except.error _ => []
  | Except.ok none => []
  | Except.ok (some td) => if td.players = [] then [] else tagTeamPlayers team_id td

/-- Concrete batch for Scenario E: team 2's fetch raises, teams 1 and
3 return one player each. -/
def scenarioEFetch : String → Except String (Option TeamRoster) := fun team_id =>
  if team_id = "2" then Except.error "fetch failed"
  else Except.ok (some ⟨("Mgr" ++ team_id).toList,
    [[("Player Name", ("P" ++ team_id).toList)]]⟩)

/-- C9: in the unified export's collection loop a failing team is
recorded in the failed list and does not abort the batch: the failed
list is exactly the failing ids in batch order, and the collected
players are exactly the concatenation, in batch order, of every
succeeding team's players tagged with `Manager` and `Team_ID`.
Scenario E: for batch [1,2,3] with team 2 raising, the output holds
teams 1 and 3's tagged records and the failed list is exactly [2]. -/
theorem claim_C9_batch_continues_past_failures :
    (∀ (get_roster : String → Except String (Option TeamRoster)) (team_ids : List String),
       (export_collect get_roster team_ids).2 =
         team_ids.filter (teamFetchFails get_roster) ∧
       (export_collect get_roster team_ids).1 =
         team_ids.flatMap (teamTaggedPlayers get_roster)) ∧
    export_collect scenarioEFetch ["1", "2", "3"] =
      ([[("Player Name", "P1".toList), ("Manager", "Mgr1".toList), ("Team_ID", "1".toList)],
        [("Player Name", "P3".toList), ("Manager", "Mgr3".toList), ("Team_ID", "3".toList)]],
       ["2"]) := by
  constructor
  · intro get_roster team_ids
    induction team_ids with
    | nil => exact ⟨rfl, rfl⟩
    | cons team_id rest ih =>
      simp only [export_collect, List.filter_cons, List.flatMap_cons]
      cases hfetch : get_roster team_id with
      | error e =>
        have hf : teamFetchFails get_roster team_id = true := by
          simp [teamFetchFails, hfetch]
        have ht : teamTaggedPlayers get_roster team_id = [] := by
          simp [teamTaggedPlayers, hfetch]
        simp [hfetch, hf, ht, ih.1, ih.2]
      | ok otd =>
        cases otd with
        | none =>
          have hf : teamFetchFails get_roster team_id = true := by
            simp [teamFetchFails, hfetch]
          have ht : teamTaggedPlayers get_roster team_id = [] := by
            simp [teamTaggedPlayers, hfetch]
          simp [hfetch, hf, ht, ih.1, ih.2]
        | some td =>
          by_cases hp : td.players = []
          · have hf : teamFetchFails get_roster team_id = true := by
              simp [teamFetchFails, hfetch, hp]
            have ht : teamTaggedPlayers get_roster team_id = [] := by
              simp [teamTaggedPlayers, hfetch, hp]
            simp [hfetch, hp, hf, ht, ih.1, ih.2]
          · have hf : teamFetchFails get_roster team_id = false := by
              simp [teamFetchFails, hfetch, hp]
            have ht : teamTaggedPlayers get_roster team_id = tagTeamPlayers team_id td := by
              simp [teamTaggedPlayers, hfetch, hp]
            simp [hfetch, hp, hf, ht, ih.1, ih.2]
  · decide

/-! ### Canonicalizer (src/transformers/espn_roster.py and
src/transformers/yahoo_roster.py) -/

/-- The fixed canonical schema: the 18 keys every canonical player
record carries. -/
def canonical_keys : List String :=
  ["Player Name", "Team", "Position", "Slot", "Opponent", "Game Time",
   "Projected Points", "Points", "Avg Points", "Last Game", "Rank",
   "Ownership %", "Start %", "Status", "Trend", "FPTS", "Opponent Rank", "Notes"]

/-- `_transform_player` from src/transformers/espn_roster.py lines
37-80: drop records with a falsy player name, map the 18 canonical
fields, then normalize each value (truthy value with truthy strip →
stripped value, else empty string). -/
def espn_transform_player (espn_player : List (String × PyStr)) :
    Option (List (String × PyStr)) :=
  if espn_player = [] ∨ pyGet espn_player "Player Name" [] = [] then none
  else
    let canonical_player : List (String × PyStr) :=
      [("Player Name", pyGet espn_player "Player Name" []),
       ("Team", pyGet espn_player "Team" []),
       ("Position", pyGet espn_player "Position" []),
       ("Slot", pyGet espn_player "Slot" []),
       ("Opponent", pyGet espn_player "Opponent" []),
       ("Game Time", pyGet espn_player "Game Time" []),
       ("Projected Points", pyGet espn_player "Projected Points" []),
       ("Points", pyGet espn_player "Points" []),
       ("Avg Points", pyGet espn_player "Avg Points" []),
       ("Last Game", pyGet espn_player "Last Game" []),
       ("Rank", pyGet espn_player "Rank" []),
       ("Ownership %", pyGet espn_player "Ownership %" []),
       ("Start %", pyGet espn_player "Start %" []),
       ("Status", pyGet espn_player "Status" []),
       ("Trend", pyGet espn_player "Trend" []),
       ("FPTS", pyGet espn_player "FPTS" []),
       ("Opponent Rank", pyGet espn_player "Opponent Rank" []),
       ("Notes", pyGet espn_player "Notes" [])]
    some (canonical_player.map (fun kv =>
      (kv.1, if kv.2 ≠ [] ∧ pyStrip kv.2 ≠ [] then pyStrip kv.2 else [])))

/-- Canonical key and Yahoo-native key, in the order of the dict
literal of src/transformers/yahoo_roster.py lines 54-73. -/
def yahooFieldPairs : List (String × String) :=
  [("Player Name", "name"), ("Team", "team"), ("Position", "position"),
   ("Slot", "slot"), ("Opponent", "opponent"), ("Game Time", "game_time"),
   ("Projected Points", "projected_points"), ("Points", "points"),
   ("Avg Points", "avg_points"), ("Last Game", "last_game"), ("Rank", "rank"),
   ("Ownership %", "ownership"), ("Start %", "start_percent"),
   ("Status", "status"), ("Trend", "trend"), ("FPTS", "fpts"),
   ("Opponent Rank", "opponent_rank"), ("Notes", "notes")]

/-- `_transform_player` from src/transformers/yahoo_roster.py lines
39-75: drop only falsy (empty) records, remap the 18 canonical fields
from the Yahoo-native names, defaulting absent ones to the empty
string — with no whitespace normalization pass. -/
def yahoo_transform_player (yahoo_player : List (String × PyStr)) :
    Option (List (String × PyStr)) :=
  if yahoo_player = [] then none
  else
    some
      [("Player Name", pyGet yahoo_player "name" []),
       ("Team", pyGet yahoo_player "team" []),
       ("Position", pyGet yahoo_player "position" []),
       ("Slot", pyGet yahoo_player "slot" []),
       ("Opponent", pyGet yahoo_player "opponent" []),
       ("Game Time", pyGet yahoo_player "game_time" []),
       ("Projected Points", pyGet yahoo_player "projected_points" []),
       ("Points", pyGet yahoo_player "points" []),
       ("Avg Points", pyGet yahoo_player "avg_points" []),
       ("Last Game", pyGet yahoo_player "last_game" []),
       ("Rank", pyGet yahoo_player "rank" []),
       ("Ownership %", pyGet yahoo_player "ownership" []),
       ("Start %", pyGet yahoo_player "start_percent" []),
       ("Status", pyGet yahoo_player "status" []),
       ("Trend", pyGet yahoo_player "trend" []),
       ("FPTS", pyGet yahoo_player "fpts" []),
       ("Opponent Rank", pyGet yahoo_player "opponent_rank" []),
       ("Notes", pyGet yahoo_player "notes" [])]

theorem pyStrip_nil : pyStrip [] = [] := rfl

theorem espn_clean_eq_strip (v : PyStr) :
    (if v ≠ [] ∧ pyStrip v ≠ [] then pyStrip v else []) = pyStrip v := by
  by_cases hs : pyStrip v = []
  · simp [hs]
  · have hv : v ≠ [] := by
      intro hnil
      rw [hnil, pyStrip_nil] at hs
      exact hs rfl
    simp [hs, hv]

theorem pyGetOpt_map_of_mem (ks : List String) (k : String) (f : String → PyStr)
    (hk : k ∈ ks) :
    pyGetOpt (ks.map (fun a => (a, f a))) k = some (f k) := by
  induction ks with
  | nil => cases hk
  | cons a rest ih =>
    by_cases h : a = k
    · subst h
      simp [pyGetOpt, List.find?]
    · rcases List.mem_cons.mp hk with h' | h'
      · exact absurd h'.symm h
      · have hbeq : (a == k) = false := by
          simp [h]
        simp only [pyGetOpt, List.map_cons, List.find?, hbeq]
        exact ih h'

theorem espn_transform_some (p out : List (String × PyStr))
    (h : espn_transform_player p = some out) :
    out = canonical_keys.map (fun k => (k, pyStrip (pyGet p k []))) := by
  rw [espn_transform_player] at h
  split at h
  · exact absurd h (by simp)
  · have hout := Option.some.inj h
    rw [← hout]
    simp [canonical_keys, espn_clean_eq_strip]

/-- C1 counterexample: the Yahoo transformer keeps a whitespace-only
input value verbatim instead of normalizing it to the empty string
(and it does not drop a record for lacking a player name — only an
entirely empty record). -/
theorem claim_C1_counterexample :
    yahoo_transform_player [("name", " ".toList)] =
      some [("Player Name", " ".toList), ("Team", []), ("Position", []),
        ("Slot", []), ("Opponent", []), ("Game Time", []), ("Projected Points", []),
        ("Points", []), ("Avg Points", []), ("Last Game", []), ("Rank", []),
        ("Ownership %", []), ("Start %", []), ("Status", []), ("Trend", []),
        ("FPTS", []), ("Opponent Rank", []), ("Notes", [])] ∧
    pyGetOpt [("Player Name", " ".toList), ("Team", []), ("Position", []),
        ("Slot", []), ("Opponent", []), ("Game Time", []), ("Projected Points", []),
        ("Points", []), ("Avg Points", []), ("Last Game", []), ("Rank", []),
        ("Ownership %", []), ("Start %", []), ("Status", []), ("Trend", []),
        ("FPTS", []), ("Opponent Rank", []), ("Notes", [])] "Player Name" =
      some " ".toList ∧
    " ".toList ≠ ([] : PyStr) := by
  decide

/-- C1 amended: every record either transformer emits carries exactly
the 18 canonical keys, in order, and a field that is absent from the
input comes out as the empty string in both transformers.  The
whitespace-only-to-empty normalization holds for the ESPN transformer
(its output value at each key is exactly the stripped input value);
the Yahoo placeholder transformer instead copies input values
unchanged. -/
theorem claim_C1_canonical_schema :
    (∀ p out, espn_transform_player p = some out →
       out.map Prod.fst = canonical_keys ∧
       (∀ k, k ∈ canonical_keys →
         pyGetOpt out k = some (pyStrip (pyGet p k [])))) ∧
    (∀ p out, yahoo_transform_player p = some out →
       out.map Prod.fst = canonical_keys ∧
       out = yahooFieldPairs.map (fun kv => (kv.1, pyGet p kv.2 []))) := by
  constructor
  · intro p out h
    have hc := espn_transform_some p out h
    constructor
    · rw [hc]
      simp [Function.comp_def]
    · intro k hk
      rw [hc, pyGetOpt_map_of_mem _ _ _ hk]
  · intro p out h
    rw [yahoo_transform_player] at h
    split at h
    · exact absurd h (by simp)
    · have hout := Option.some.inj h
      rw [← hout]
      constructor
      · simp [canonical_keys]
      · simp [yahooFieldPairs]

/-- Witness for C1's amended theorem: a record with a whitespace-only
`Team` and no other fields — the ESPN transformer emits all 18 keys
with `Team` normalized to the empty string. -/
theorem claim_C1_witness :
    ([("Player Name", "Jo".toList), ("Team", []), ("Position", []),
      ("Slot", []), ("Opponent", []), ("Game Time", []), ("Projected Points", []),
      ("Points", []), ("Avg Points", []), ("Last Game", []), ("Rank", []),
      ("Ownership %", []), ("Start %", []), ("Status", []), ("Trend", []),
      ("FPTS", []), ("Opponent Rank", []), ("Notes", [])].map Prod.fst = canonical_keys) ∧
    pyGetOpt [("Player Name", "Jo".toList), ("Team", []), ("Position", []),
      ("Slot", []), ("Opponent", []), ("Game Time", []), ("Projected Points", []),
      ("Points", []), ("Avg Points", []), ("Last Game", []), ("Rank", []),
      ("Ownership %", []), ("Start %", []), ("Status", []), ("Trend", []),
      ("FPTS", []), ("Opponent Rank", []), ("Notes", [])] "Team" = some [] := by
  have happ := claim_C1_canonical_schema.1
    [("Player Name", " Jo ".toList), ("Team", "  ".toList)]
    [("Player Name", "Jo".toList), ("Team", []), ("Position", []),
     ("Slot", []), ("Opponent", []), ("Game Time", []), ("Projected Points", []),
     ("Points", []), ("Avg Points", []), ("Last Game", []), ("Rank", []),
     ("Ownership %", []), ("Start %", []), ("Status", []), ("Trend", []),
     ("FPTS", []), ("Opponent Rank", []), ("Notes", [])] (by decide)
  exact ⟨happ.1, (happ.2 "Team" (by decide)).trans (by decide)⟩

/-! ### Idempotence analysis of the name/team/position split (C6) -/

theorem dropWhile_head?_not (p : Char → Bool) (l : List Char) (c : Char)
    (h : (l.dropWhile p).head? = some c) : p c = false := by
  induction l with
  | nil => simp at h
  | cons a r ih =>
    rw [List.dropWhile_cons] at h
    by_cases hpa : p a = true
    · rw [if_pos hpa] at h
      exact ih h
    · rw [if_neg hpa] at h
      simp at h
      rw [← h]
      exact Bool.eq_false_iff.mpr hpa

theorem dropWhile_eq_self_of_head? (p : Char → Bool) (l : List Char)
    (h : ∀ c, l.head? = some c → p c = false) : l.dropWhile p = l := by
  cases l with
  | nil => rfl
  | cons a r =>
    rw [List.dropWhile_cons, if_neg]
    rw [h a rfl]
    simp

theorem dropWhile_dropWhile (p : Char → Bool) (l : List Char) :
    (l.dropWhile p).dropWhile p = l.dropWhile p :=
  dropWhile_eq_self_of_head? p _ (fun c hc => dropWhile_head?_not p l c hc)

theorem getLast?_dropWhile (p : Char → Bool) (l : List Char) :
    l.dropWhile p = [] ∨ (l.dropWhile p).getLast? = l.getLast? := by
  induction l with
  | nil => exact Or.inl rfl
  | cons a r ih =>
    rw [List.dropWhile_cons]
    by_cases hpa : p a = true
    · rw [if_pos hpa]
      cases r with
      | nil => exact Or.inl rfl
      | cons b r' =>
        rcases ih with h | h
        · exact Or.inl h
        · exact Or.inr (by rw [h, List.getLast?_cons_cons])
    · rw [if_neg hpa]
      exact Or.inr rfl

theorem pyStrip_idem (s : PyStr) : pyStrip (pyStrip s) = pyStrip s := by
  unfold pyStrip
  set u := s.dropWhile pyIsSpace with hu
  set w := u.reverse.dropWhile pyIsSpace with hw
  by_cases hwnil : w = []
  · rw [hwnil]
    rfl
  · have hhead : ∀ c, w.reverse.head? = some c → pyIsSpace c = false := by
      intro c hc
      rw [List.head?_reverse] at hc
      rcases getLast?_dropWhile pyIsSpace u.reverse with h | h
      · exact absurd h hwnil
      · rw [hw, h, List.getLast?_reverse] at hc
        exact dropWhile_head?_not pyIsSpace s c (hu ▸ hc)
    rw [dropWhile_eq_self_of_head? pyIsSpace w.reverse hhead]
    rw [List.reverse_reverse, dropWhile_dropWhile]

theorem cleanupNameAux_stripped (fuel : Nat) (s : PyStr) (hs : pyStrip s = s) :
    pyStrip (cleanupNameAux fuel s) = cleanupNameAux fuel s := by
  induction fuel generalizing s with
  | zero => exact hs
  | succ fuel ih =>
    rw [cleanupNameAux]
    by_cases h : s.length > 1 ∧ pyIsUpper (s.getLastD ' ')
    · rw [if_pos h]
      exact ih (pyStrip s.dropLast) (pyStrip_idem s.dropLast)
    · rw [if_neg h]
      exact hs

theorem cleanupNameAux_guard_false (fuel : Nat) (s : PyStr) (h : s.length ≤ fuel) :
    ¬((cleanupNameAux fuel s).length > 1 ∧
      pyIsUpper ((cleanupNameAux fuel s).getLastD ' ')) := by
  induction fuel generalizing s with
  | zero =>
    have : s = [] := List.eq_nil_of_length_eq_zero (Nat.le_zero.mp h)
    rw [this]
    intro hcontra
    simp [cleanupNameAux] at hcontra
  | succ fuel ih =>
    rw [cleanupNameAux]
    by_cases hg : s.length > 1 ∧ pyIsUpper (s.getLastD ' ')
    · rw [if_pos hg]
      refine ih (pyStrip s.dropLast) ?_
      have h1 : (pyStrip s.dropLast).length ≤ s.dropLast.length := pyStrip_length_le _
      have h2 : s.dropLast.length = s.length - 1 := List.length_dropLast s
      omega
    · rw [if_neg hg]
      exact hg

theorem cleanupName_fix (s : PyStr)
    (hfix : ¬(s.length > 1 ∧ pyIsUpper (s.getLastD ' '))) : cleanupName s = s := by
  rw [cleanupName]
  cases hl : s.length with
  | zero =>
    rw [List.eq_nil_of_length_eq_zero hl]
    rfl
  | succ k =>
    rw [cleanupNameAux, if_neg hfix]

/-- The resulting name of `cleanupName (pyStrip x)` is a fixpoint of
both the strip and the cleanup loop. -/
theorem cleanupName_pyStrip_fix (x : PyStr) :
    pyStrip (cleanupName (pyStrip x)) = cleanupName (pyStrip x) ∧
    cleanupName (cleanupName (pyStrip x)) = cleanupName (pyStrip x) := by
  constructor
  · exact cleanupNameAux_stripped (pyStrip x).length (pyStrip x) (pyStrip_idem x)
  · exact cleanupName_fix _ (cleanupNameAux_guard_false (pyStrip x).length (pyStrip x) le_rfl)

/-- A proper border of `w`: a nonempty proper prefix of `w` that is
also a suffix of `w`.  Pattern strings without a border admit no
self-overlapping occurrence. -/
def HasBorder (w : PyStr) : Prop :=
  ∃ k ∈ List.range w.length, 0 < k ∧ w.take k = w.drop (w.length - k)

instance (w : PyStr) : Decidable (HasBorder w) := by
  unfold HasBorder
  infer_instance

theorem removeAllAux_fuel_inv (pat : PyStr) (f1 : Nat) :
    ∀ (f2 : Nat) (s : PyStr), s.length ≤ f1 → s.length ≤ f2 →
      removeAllAux pat f1 s = removeAllAux pat f2 s := by
  induction f1 with
  | zero =>
    intro f2 s h1 _
    rw [List.eq_nil_of_length_eq_zero (Nat.le_zero.mp h1)]
    cases f2 <;> rfl
  | succ f1 ih =>
    intro f2 s h1 h2
    cases s with
    | nil => cases f2 <;> rfl
    | cons c rest =>
      cases f2 with
      | zero => simp at h2
      | succ f2 =>
        rw [removeAllAux, removeAllAux]
        by_cases hc : pat ≠ [] ∧ pat <+: (c :: rest)
        · rw [if_pos hc, if_pos hc]
          have hd : (List.drop (pat.length - 1) rest).length ≤ rest.length := by
            rw [List.length_drop]
            omega
          have hr : rest.length ≤ f1 := by
            simp at h1
            omega
          have hr2 : rest.length ≤ f2 := by
            simp at h2
            omega
          exact ih f2 _ (le_trans hd hr) (le_trans hd hr2)
        · rw [if_neg hc, if_neg hc]
          have hr : rest.length ≤ f1 := by
            simp at h1
            omega
          have hr2 : rest.length ≤ f2 := by
            simp at h2
            omega
          rw [ih f2 rest hr hr2]

theorem removeAllAux_no_occ (pat : PyStr) (fuel : Nat) :
    ∀ s : PyStr, ¬ pat <:+: s → removeAllAux pat fuel s = s := by
  induction fuel with
  | zero => intro s _; rfl
  | succ fuel ih =>
    intro s hno
    cases s with
    | nil => rfl
    | cons c rest =>
      rw [removeAllAux, if_neg, ih rest]
      · intro hinf
        exact hno (hinf.trans (List.suffix_cons c rest).isInfix)
      · intro hc
        exact hno hc.2.isInfix

/-- No occurrence of a border-free pattern starts strictly inside `a`
in `a ++ pat ++ b`. -/
theorem no_overlap_prefix (pat a' b : PyStr) (c : Char)
    (hnb : ¬ HasBorder pat)
    (hna : ¬ pat <:+: (c :: a')) :
    ¬ pat <+: ((c :: a') ++ pat ++ b) := by
  intro hpre
  have hEq : pat = ((c :: a') ++ pat ++ b).take pat.length :=
    List.prefix_iff_eq_take.mp hpre
  rcases le_or_lt pat.length (c :: a').length with hle | hlt
  · have hp2 : pat = (c :: a').take pat.length := by
      conv_lhs => rw [hEq]
      rw [List.append_assoc, List.take_append_of_le_length hle]
    have hpp : pat <+: (c :: a') := by
      rw [hp2]
      exact List.take_prefix _ _
    exact hna hpp.isInfix
  · have hA : 0 < (c :: a').length := by simp
    have hdrop : pat.drop (c :: a').length = pat.take (pat.length - (c :: a').length) := by
      conv_lhs => rw [hEq]
      rw [List.drop_take, List.append_assoc, List.drop_left,
        List.take_append_of_le_length (by omega)]
    apply hnb
    refine ⟨pat.length - (c :: a').length, List.mem_range.mpr (by omega), by omega, ?_⟩
    rw [← hdrop]
    congr 1
    omega

theorem removeAllAux_skip (pat b : PyStr) (hpat : pat ≠ []) (hnb : ¬ HasBorder pat) :
    ∀ (a : PyStr) (fuel : Nat), (a ++ pat ++ b).length ≤ fuel → ¬ pat <:+: a →
      removeAllAux pat fuel (a ++ pat ++ b) = a ++ removeAll pat b := by
  intro a
  induction a with
  | nil =>
    intro fuel hfuel _
    cases pat with
    | nil => exact absurd rfl hpat
    | cons ph pt =>
      cases fuel with
      | zero => simp at hfuel
      | succ fuel =>
        simp only [List.nil_append, List.cons_append]
        rw [removeAllAux, if_pos]
        · have hdrop : List.drop ((ph :: pt).length - 1) (pt ++ b) = b := by
            have : (ph :: pt).length - 1 = pt.length := by simp
            rw [this, List.drop_left]
          rw [hdrop]
          have hblen : b.length ≤ fuel := by
            simp at hfuel
            omega
          exact removeAllAux_fuel_inv (ph :: pt) fuel b.length b hblen le_rfl
        · constructor
          · exact hpat
          · rw [← List.cons_append]
            exact List.prefix_append (ph :: pt) b
  | cons c a' ih =>
    intro fuel hfuel hna
    cases fuel with
    | zero => simp at hfuel
    | succ fuel =>
      have hna' : ¬ pat <:+: a' := fun hinf =>
        hna (hinf.trans (List.suffix_cons c a').isInfix)
      have hlen : (a' ++ pat ++ b).length ≤ fuel := by
        simp only [List.cons_append, List.length_cons, List.length_append] at hfuel ⊢
        omega
      have hnc : ¬ (pat ≠ [] ∧ pat <+: (c :: (a' ++ pat ++ b))) := by
        intro hc
        apply no_overlap_prefix pat a' b c hnb hna
        simpa using hc.2
      have hrest : (c :: a') ++ pat ++ b = c :: (a' ++ pat ++ b) := by
        simp
      rw [hrest, removeAllAux, if_neg hnc, ih fuel hlen hna', List.cons_append]

/-- `s.replace(pat, '')` on `a ++ pat ++ b` removes the designated
occurrence and leaves border-free, occurrence-free context intact. -/
theorem removeAll_skip (pat a b : PyStr) (hpat : pat ≠ []) (hnb : ¬ HasBorder pat)
    (hna : ¬ pat <:+: a) :
    removeAll pat (a ++ pat ++ b) = a ++ removeAll pat b :=
  removeAllAux_skip pat b hpat hnb a (a ++ pat ++ b).length le_rfl hna

theorem removeAll_no_occ (pat s : PyStr) (hno : ¬ pat <:+: s) : removeAll pat s = s :=
  removeAllAux_no_occ pat s.length s hno

theorem firstMatch_mem (cands : List PyStr) (t : PyStr) :
    firstMatch cands t = [] ∨ firstMatch cands t ∈ cands := by
  induction cands with
  | nil => exact Or.inl rfl
  | cons c rest ih =>
    rw [firstMatch]
    by_cases h : c <:+: t
    · rw [if_pos h]
      exact Or.inr (List.mem_cons_self c rest)
    · rw [if_neg h]
      rcases ih with h' | h'
      · exact Or.inl h'
      · exact Or.inr (List.mem_cons_of_mem c h')

theorem clean_teams_noBorder : ∀ x ∈ clean_teams, ¬ HasBorder x := by decide

theorem positions_noBorder : ∀ x ∈ positions, ¬ HasBorder x := by decide

theorem clean_teams_not_infix_positions :
    ∀ x ∈ clean_teams, ∀ y ∈ positions, ¬ x <:+: y := by decide

theorem eq_nil_of_infix_nil (l : PyStr) (h : l <:+: []) : l = [] :=
  List.eq_nil_of_length_eq_zero (Nat.le_zero.mp h.length_le)

/-- C6 counterexample: on `"BenchQ"` the split returns name `"Q"`,
team `""`, position `"Bench"`, but re-splitting the reconstruction
`"QBench"` finds the earlier list entry `"QB"` as the position and
returns different components. -/
theorem claim_C6_counterexample :
    parse_player_name "BenchQ".toList = ⟨"Q".toList, [], "Bench".toList⟩ ∧
    parse_player_name ("Q".toList ++ ([] : PyStr) ++ "Bench".toList) ≠
      ⟨"Q".toList, [], "Bench".toList⟩ := by
  decide

/-- C6 amended: the split is idempotent on the reconstruction
`name ++ team ++ position` provided the reconstruction is not a
sentinel, re-scanning it finds the same position and team entries, and
the name contains no occurrence of the matched team or position.
(Without these side conditions idempotence fails, see the
counterexample: removal and concatenation can manufacture an earlier
list entry.) -/
theorem claim_C6_idempotent_when_no_new_match
    (t n tm p : PyStr)
    (hparse : parse_player_name t = ⟨n, tm, p⟩)
    (ht : t ≠ [] ∧ t ≠ "MOVE".toList ∧ t ≠ "TOTALS".toList)
    (hs : n ++ tm ++ p ≠ [] ∧ n ++ tm ++ p ≠ "MOVE".toList ∧ n ++ tm ++ p ≠ "TOTALS".toList)
    (hpos : firstMatch positions (n ++ tm ++ p) = p)
    (hteam : firstMatch clean_teams (n ++ tm ++ p) = tm)
    (hnp : p ≠ [] → ¬ p <:+: n)
    (hntm : tm ≠ [] → ¬ tm <:+: n) :
    parse_player_name (n ++ tm ++ p) = ⟨n, tm, p⟩ := by
  rw [parse_player_name, if_neg (by
    rintro (h | h | h)
    exacts [ht.1 h, ht.2.1 h, ht.2.2 h])] at hparse
  simp only [ParsedName.mk.injEq] at hparse
  obtain ⟨hn, htm0, hp0⟩ := hparse
  have hpmem : p = [] ∨ p ∈ positions := by
    rcases firstMatch_mem positions t with h | h
    · exact Or.inl (hp0 ▸ h)
    · exact Or.inr (hp0 ▸ h)
  have htmmem : tm = [] ∨ tm ∈ clean_teams := by
    rcases firstMatch_mem clean_teams t with h | h
    · exact Or.inl (htm0 ▸ h)
    · exact Or.inr (htm0 ▸ h)
  have hfix : pyStrip n = n ∧ cleanupName n = n := by
    have hf := cleanupName_pyStrip_fix
      (if firstMatch positions t ≠ [] then
        removeAll (firstMatch positions t)
          (if firstMatch clean_teams t ≠ [] then removeAll (firstMatch clean_teams t) t else t)
       else
        (if firstMatch clean_teams t ≠ [] then removeAll (firstMatch clean_teams t) t else t))
    rw [hn] at hf
    exact hf
  rw [parse_player_name, if_neg (by
    rintro (h | h | h)
    exacts [hs.1 h, hs.2.1 h, hs.2.2 h])]
  simp only [ParsedName.mk.injEq]
  refine ⟨?_, hteam, hpos⟩
  rw [hteam, hpos]
  have hname1 : (if tm ≠ [] then removeAll tm (n ++ tm ++ p) else n ++ tm ++ p) = n ++ p := by
    rcases htmmem with htme | htmm
    · rw [if_neg (by simp [htme]), htme, List.append_nil]
    · have htmne : tm ≠ [] := by
        intro hcontra
        rw [hcontra] at htmm
        exact absurd htmm (by decide)
      rw [if_pos htmne]
      have hnotp : ¬ tm <:+: p := by
        rcases hpmem with hpe | hpm
        · rw [hpe]
          intro hinf
          exact htmne (eq_nil_of_infix_nil tm hinf)
        · exact clean_teams_not_infix_positions tm htmm p hpm
      rw [removeAll_skip tm n p htmne (clean_teams_noBorder tm htmm) (hntm htmne),
        removeAll_no_occ tm p hnotp]
  rw [hname1]
  have hname2 : (if p ≠ [] then removeAll p (n ++ p) else n ++ p) = n := by
    rcases hpmem with hpe | hpm
    · rw [if_neg (by simp [hpe]), hpe, List.append_nil]
    · have hpne : p ≠ [] := by
        intro hcontra
        rw [hcontra] at hpm
        exact absurd hpm (by decide)
      rw [if_pos hpne]
      have : n ++ p = n ++ p ++ [] := by rw [List.append_nil]
      rw [this, removeAll_skip p n [] hpne (positions_noBorder p hpm) (hnp hpne)]
      rw [show removeAll p [] = [] from rfl, List.append_nil]
  rw [hname2, hfix.1, hfix.2]

/-- Witness for C6's amended theorem at the well-formed Scenario A
input, whose reconstruction re-parses cleanly. -/
theorem claim_C6_witness :
    parse_player_name ("J. Smith".toList ++ "KC".toList ++ "RB".toList) =
      ⟨"J. Smith".toList, "KC".toList, "RB".toList⟩ :=
  claim_C6_idempotent_when_no_new_match "J. SmithKCRB".toList
    "J. Smith".toList "KC".toList "RB".toList
    (by decide) (by decide) (by decide) (by decide) (by decide) (by decide) (by decide)
